import Mathlib

/-!
Verification of the session-persistence contract of the tech-spec-generator
API.  The repository contains two deployable configurations of the same
`StorageService` contract:

* an in-memory variant backed by a JavaScript `Map` keyed by `sessionId`
  (`src/services/storage.service.ts`, first variant), and
* a durable variant backed by a PostgreSQL table via Prisma
  (`src/services/storage.service.ts`, second variant), whose table carries a
  UNIQUE index on `sessionId` plus auto-managed `createdAt` / `updatedAt`
  columns (`prisma/migrations/.../migration.sql`).

On top of the store sits a thin HTTP controller (`src/controllers/
chat.controller.ts`): request validation, session-id generation, and the
health probe.

Modelling conventions:

* ISO-8601 timestamp strings are modelled by the instant they denote, as an
  integer count of milliseconds; under this abstraction JavaScript's
  `new Date(s)` and `Date.toISOString()` are identities, which is exact for
  the canonical ISO strings the API produces and never makes a claim easier
  to prove than it is over strings (no claim compares distinct textual forms
  of one instant).
* The JavaScript `Map` is an association list in insertion order:
  `Map.set` replaces in place, `Map.delete` removes the entry,
  `Array.from(map.values())` lists values in insertion order.
* The Prisma-backed store is a list of table rows together with a `failing`
  flag modelling an unreachable / erroring storage medium; every `try/catch`
  in the source becomes a case split on that flag.  Code inside `try` that
  throws is modelled by `Except`.
* `orderBy: { timestamp: 'desc' }` is modelled as a stable descending sort
  on the stored rows (row order = insertion order).
-/

/-- A chat message (`Message` in `src/types/index.ts`): a role, text content
and an optional timestamp. -/
inductive Role where
  | user
  | model
deriving DecidableEq, Repr

structure Message where
  role : Role
  content : String
  timestamp : Option Int := none
deriving DecidableEq, Repr

/-- Optional session metadata (`metadata` field of `ChatSession` in
`src/types/index.ts`). -/
structure Metadata where
  userAgent : Option String := none
  clientVersion : Option String := none
deriving DecidableEq, Repr

/-- A chat session as exchanged with the store (`ChatSession` in
`src/types/index.ts`). -/
structure ChatSession where
  sessionId : String
  messages : List Message
  timestamp : Int
  metadata : Option Metadata := none
deriving DecidableEq, Repr

namespace Mem

/-! The in-memory `StorageService`: `private sessions: Map<string,
ChatSession>`, modelled as an association list in insertion order. -/

/-- The in-memory store state: the entries of the JavaScript `Map` in
insertion order. -/
abbrev Store := List (String × ChatSession)

/-- `Map.set k v`: replace the value in place if the key is present
(keeping its insertion position), otherwise append a new entry. -/
def mapSet (st : List (String × ChatSession)) (k : String) (v : ChatSession) :
    List (String × ChatSession) :=
  match st with
  | [] => [(k, v)]
  | (k0, v0) :: t => if k0 = k then (k, v) :: t else (k0, v0) :: mapSet t k v

/-- `saveSession(session)`: `this.sessions.set(session.sessionId, session)`. -/
def saveSession (st : Store) (s : ChatSession) : Store :=
  mapSet st s.sessionId s

/-- `getSession(sessionId)`: `this.sessions.get(sessionId) || null`. -/
def getSession (st : Store) (sessionId : String) : Option ChatSession :=
  (List.find? (fun e => e.1 = sessionId) st).map (fun e => e.2)

/-- `getAllSessions()`: `Array.from(this.sessions.values())` — the stored
sessions in insertion order. -/
def getAllSessions (st : Store) : List ChatSession :=
  List.map (fun e => e.2) st

/-- `deleteSession(sessionId)`: `this.sessions.delete(sessionId)` — removes
the entry if present and reports whether one was removed. -/
def deleteSession (st : Store) (sessionId : String) :
    Store × Bool :=
  match st with
  | [] => ([], false)
  | (k0, v0) :: t =>
    if k0 = sessionId then (t, true)
    else
      let r := deleteSession t sessionId
      ((k0, v0) :: r.1, r.2)

/-- `getSessionCount()`: `this.sessions.size`. -/
def getSessionCount (st : Store) : Nat :=
  List.length st

/-- The `Map` invariant: keys are pairwise distinct (`Map.set` and
`Map.delete` keep it). -/
def NodupKeys (st : Store) : Prop :=
  (List.map (fun e => e.1) st).Nodup

end Mem

/-- One row of the `chat_sessions` table
(`prisma/migrations/20251030180720_init/migration.sql`): `sessionId` is
UNIQUE, `createdAt` defaults to the insertion time, `updatedAt` is set on
every write. -/
structure Row where
  sessionId : String
  messages : List Message
  timestamp : Int
  metadata : Option Metadata
  createdAt : Int
  updatedAt : Int
deriving DecidableEq, Repr

/-- The durable store: its table rows (in insertion order) plus a flag for
an unreachable or erroring storage medium. -/
structure PrismaDB where
  rows : List Row
  failing : Bool
deriving DecidableEq, Repr

namespace Prisma

/-- The `update` arm of the upsert of `saveSession`: replace `messages`,
`timestamp`, `metadata`, and (via Prisma's `@updatedAt`) `updatedAt`,
keeping `sessionId` and `createdAt`. -/
def updRow (s : ChatSession) (now : Int) (r : Row) : Row :=
  { r with
    messages := s.messages
    timestamp := s.timestamp
    metadata := s.metadata
    updatedAt := now }

/-- The fresh row inserted by the `create` arm of the upsert:
`createdAt = updatedAt = now`. -/
def newRow (s : ChatSession) (now : Int) : Row :=
  { sessionId := s.sessionId, messages := s.messages,
    timestamp := s.timestamp, metadata := s.metadata,
    createdAt := now, updatedAt := now }

/-- The `prisma.chatSession.upsert` call of `saveSession`: if a row with
this `sessionId` exists, replace its `messages`, `timestamp`, `metadata`
(and, via `@updatedAt`, its `updatedAt`) in place; otherwise insert a fresh
row with `createdAt = updatedAt = now`. -/
def upsertRows (rows : List Row) (s : ChatSession) (now : Int) : List Row :=
  if rows.any (fun r => r.sessionId = s.sessionId) then
    rows.map (fun r => if r.sessionId = s.sessionId then updRow s now r else r)
  else
    rows ++ [newRow s now]

/-- `saveSession(session)` (Prisma variant): upsert by `sessionId`; on a
storage error the `catch` rethrows `new Error('Failed to save chat
session')`. -/
def saveSession (db : PrismaDB) (s : ChatSession) (now : Int) :
    Except String PrismaDB :=
  if db.failing then Except.error "Failed to save chat session"
  else Except.ok { rows := upsertRows db.rows s now, failing := false }

/-- The row-to-session conversion performed by `getSession` /
`getAllSessions` (`timestamp.toISOString()` is the identity in this
model). -/
def rowToSession (r : Row) : ChatSession :=
  { sessionId := r.sessionId, messages := r.messages,
    timestamp := r.timestamp, metadata := r.metadata }

/-- `getSession(sessionId)` (Prisma variant): `findUnique`; `null` when no
row matches, and — per the `catch` block — also `null` when the storage
medium errors. -/
def getSession (db : PrismaDB) (sessionId : String) : Option ChatSession :=
  if db.failing then none
  else
    match List.find? (fun r => r.sessionId = sessionId) db.rows with
    | none => none
    | some r => some (rowToSession r)

/-- Stable descending insertion by `timestamp`: the new row goes in front
of the first row whose timestamp is not strictly greater. -/
def insertDesc (r : Row) : List Row → List Row
  | [] => [r]
  | h :: t => if r.timestamp < h.timestamp then h :: insertDesc r t else r :: h :: t

/-- `findMany({ orderBy: { timestamp: 'desc' } })`: the rows in descending
timestamp order, stable on the stored row order. -/
def orderByTimestampDesc : List Row → List Row
  | [] => []
  | h :: t => insertDesc h (orderByTimestampDesc t)

/-- `getAllSessions()` (Prisma variant): all rows ordered by `timestamp`
descending; the `catch` block returns `[]` on a storage error. -/
def getAllSessions (db : PrismaDB) : List ChatSession :=
  if db.failing then []
  else List.map rowToSession (orderByTimestampDesc db.rows)

/-- `deleteSession(sessionId)` (Prisma variant): `delete` removes the
matching row and returns `true`; when no row matches, Prisma throws and the
`catch` returns `false`; a storage error likewise lands in the `catch` and
returns `false`. -/
def deleteSession (db : PrismaDB) (sessionId : String) : PrismaDB × Bool :=
  if db.failing then (db, false)
  else if db.rows.any (fun r => r.sessionId = sessionId) then
    ({ rows := db.rows.filter (fun r => ¬ r.sessionId = sessionId),
       failing := false }, true)
  else (db, false)

/-- `getSessionCount()` (Prisma variant): `count()`; the `catch` block
returns `0` on a storage error. -/
def getSessionCount (db : PrismaDB) : Nat :=
  if db.failing then 0 else db.rows.length

/-- `StorageService.getSessionCount` as seen by its callers: because the
method catches every storage error internally (returning `0`), the call
itself never fails. -/
def getSessionCountE (db : PrismaDB) : Except String Nat :=
  Except.ok (getSessionCount db)

/-- The UNIQUE index on `sessionId`: row identifiers are pairwise
distinct. -/
def NodupIds (db : PrismaDB) : Prop :=
  (List.map Row.sessionId db.rows).Nodup

end Prisma

namespace Http

/-! The controller layer (`src/controllers/chat.controller.ts`), plus the
earlier in-memory-era controller variant kept in the repository
(`src/unnamed/part_001`, which additionally requires `sessionId`). -/

/-- The `messages` field of a `POST /chat/save` body as the validation sees
it: absent (or another falsy value), present but not an array, or an
array. -/
inductive MessagesField where
  | missing
  | notAnArray
  | arr (ms : List Message)
deriving DecidableEq, Repr

/-- A `POST /chat/save` request body.  `sessionId` and `timestamp` are
optional; `some ""` models a present-but-empty string, which JavaScript
`||` treats like an absent one. -/
structure SaveChatRequest where
  sessionId : Option String
  messages : MessagesField
  timestamp : Option Int
deriving DecidableEq, Repr

/-- The observable outcome of the save controller: HTTP status, response
body fields, and the session handed to `storageService.saveSession`
(`none` when the store was never called). -/
structure SaveChatResult where
  httpStatus : Nat
  success : Bool
  sessionId : Option String
  error : Option String
  message : String
  delegated : Option ChatSession
deriving DecidableEq, Repr

/-- JavaScript `o || d` on an optional string: the fallback is used when
the value is absent or empty. -/
def jsOrString (o : Option String) (d : String) : String :=
  match o with
  | none => d
  | some s => if s = "" then d else s

/-- `saveChatSession` (current controller, `chat.controller.ts`):
validates `messages`, generates a `sessionId` when none was supplied
(`genId` stands for the concrete `chat-${Date.now()}-${random}` token),
delegates to `saveSession`, and maps its outcome to 201 / 500.  `save` is
the store's `saveSession` as the controller awaits it. -/
def saveChatSession (save : ChatSession → Except String Unit) (genId : String)
    (now : Int) (req : SaveChatRequest) : SaveChatResult :=
  match req.messages with
  | MessagesField.missing =>
    { httpStatus := 400, success := false, sessionId := none,
      error := some "Invalid request", message := "messages array is required",
      delegated := none }
  | MessagesField.notAnArray =>
    { httpStatus := 400, success := false, sessionId := none,
      error := some "Invalid request", message := "messages array is required",
      delegated := none }
  | MessagesField.arr ms =>
    if ms.length = 0 then
      { httpStatus := 400, success := false, sessionId := none,
        error := some "Invalid request",
        message := "messages array cannot be empty", delegated := none }
    else
      let finalSessionId := jsOrString req.sessionId genId
      let session : ChatSession :=
        { sessionId := finalSessionId, messages := ms,
          timestamp := req.timestamp.getD now, metadata := none }
      match save session with
      | Except.ok _ =>
        { httpStatus := 201, success := true, sessionId := some finalSessionId,
          error := none, message := "Chat session saved successfully",
          delegated := some session }
      | Except.error e =>
        { httpStatus := 500, success := false, sessionId := none,
          error := some "Failed to save chat session", message := e,
          delegated := some session }

/-- `saveChatSession` (earlier variant, `src/unnamed/part_001`): identical
except that a missing (or empty) `sessionId` is itself a 400 validation
failure — no identifier is generated. -/
def saveChatSessionVariant (save : ChatSession → Except String Unit)
    (now : Int) (req : SaveChatRequest) : SaveChatResult :=
  match req.messages with
  | MessagesField.missing =>
    { httpStatus := 400, success := false, sessionId := none,
      error := some "Invalid request",
      message := "sessionId and messages array are required",
      delegated := none }
  | MessagesField.notAnArray =>
    { httpStatus := 400, success := false, sessionId := none,
      error := some "Invalid request",
      message := "sessionId and messages array are required",
      delegated := none }
  | MessagesField.arr ms =>
    if jsOrString req.sessionId "" = "" then
      { httpStatus := 400, success := false, sessionId := none,
        error := some "Invalid request",
        message := "sessionId and messages array are required",
        delegated := none }
    else if ms.length = 0 then
      { httpStatus := 400, success := false, sessionId := none,
        error := some "Invalid request",
        message := "messages array cannot be empty", delegated := none }
    else
      let sid := jsOrString req.sessionId ""
      let session : ChatSession :=
        { sessionId := sid, messages := ms,
          timestamp := req.timestamp.getD now, metadata := none }
      match save session with
      | Except.ok _ =>
        { httpStatus := 201, success := true, sessionId := some sid,
          error := none, message := "Chat session saved successfully",
          delegated := some session }
      | Except.error e =>
        { httpStatus := 500, success := false, sessionId := none,
          error := some "Failed to save chat session", message := e,
          delegated := some session }

/-- The observable part of a `GET /health` response. -/
structure HealthResult where
  httpStatus : Nat
  success : Bool
  status : String
  connected : Bool
  sessionCount : Nat
deriving DecidableEq, Repr

/-- `healthCheck` (`chat.controller.ts`): awaits
`storageService.getSessionCount()` inside `try/catch`; a successful call
yields 200 / "healthy" with the count, a thrown error yields 503 /
"degraded" with the initial count `0`. -/
def healthCheck (countResult : Except String Nat) : HealthResult :=
  match countResult with
  | Except.ok c =>
    { httpStatus := 200, success := true, status := "healthy",
      connected := true, sessionCount := c }
  | Except.error _ =>
    { httpStatus := 503, success := true, status := "degraded",
      connected := false, sessionCount := 0 }

/-- `GET /health` composed with the durable store's `getSessionCount`. -/
def healthEndpoint (db : PrismaDB) : HealthResult :=
  healthCheck (Prisma.getSessionCountE db)

/-- `getChatSession` status mapping (`chat.controller.ts`): 404 when the
store reports no session, 200 otherwise. -/
def getChatSessionStatus (found : Option ChatSession) : Nat :=
  match found with
  | none => 404
  | some _ => 200

end Http

/-! Helper lemmas about the in-memory `Map` model. -/

namespace Mem

theorem find?_mapSet_self (st : Store) (k : String) (v : ChatSession) :
    List.find? (fun e => e.1 = k) (mapSet st k v) = some (k, v) := by
  induction st with
  | nil => simp [mapSet]
  | cons h t ih =>
    obtain ⟨k0, v0⟩ := h
    by_cases hk : k0 = k
    · simp [mapSet, hk]
    · simp [mapSet, hk, ih]

theorem getSession_saveSession_self (st : Store) (s : ChatSession) :
    getSession (saveSession st s) s.sessionId = some s := by
  simp [getSession, saveSession, find?_mapSet_self]

theorem nodupKeys_cons {k0 : String} {v0 : ChatSession} {t : Store}
    (h : NodupKeys ((k0, v0) :: t)) :
    k0 ∉ List.map (fun e => e.1) t ∧ NodupKeys t := by
  simp only [NodupKeys, List.map_cons] at h
  exact List.nodup_cons.mp h

theorem notMem_keys {k : String} {t : Store}
    (h : k ∉ List.map (fun e => e.1) t) :
    ∀ e ∈ t, ¬ e.1 = k := by
  intro e he harg
  exact h (harg ▸ List.mem_map_of_mem (fun e => e.1) he)

theorem map_fst_mapSet (st : Store) (k : String) (v : ChatSession) :
    List.map (fun e => e.1) (mapSet st k v)
      = if k ∈ List.map (fun e => e.1) st then List.map (fun e => e.1) st
        else List.map (fun e => e.1) st ++ [k] := by
  induction st with
  | nil => simp [mapSet]
  | cons hd t ih =>
    obtain ⟨k0, v0⟩ := hd
    by_cases hk : k0 = k
    · subst hk
      simp [mapSet]
    · have hne : ¬ (k = k0) := fun hx => hk hx.symm
      by_cases hmem : k ∈ List.map (fun e => e.1) t
      · simp [mapSet, hk, ih, hmem, hne]
      · simp [mapSet, hk, ih, hmem, hne]

theorem nodupKeys_mapSet (st : Store) (k : String) (v : ChatSession)
    (h : NodupKeys st) : NodupKeys (mapSet st k v) := by
  unfold NodupKeys at h ⊢
  rw [map_fst_mapSet]
  by_cases hmem : k ∈ List.map (fun e => e.1) st
  · simpa [hmem] using h
  · simp [hmem, List.nodup_append, h]

theorem countP_mapSet (st : Store) (k : String) (v : ChatSession)
    (h : NodupKeys st) :
    List.countP (fun e => e.1 = k) (mapSet st k v) = 1 := by
  induction st with
  | nil => simp [mapSet]
  | cons hd t ih =>
    obtain ⟨k0, v0⟩ := hd
    obtain ⟨h1, h2⟩ := nodupKeys_cons h
    by_cases hk : k0 = k
    · subst hk
      have hzero : List.countP (fun e => e.1 = k0) t = 0 := by
        rw [List.countP_eq_zero]
        intro e he
        simpa using notMem_keys h1 e he
      simp [mapSet, List.countP_cons, hzero]
    · simp [mapSet, hk, List.countP_cons, ih h2]

theorem deleteSession_snd (st : Store) (sessionId : String) :
    (deleteSession st sessionId).2 = (getSession st sessionId).isSome := by
  induction st with
  | nil => simp [deleteSession, getSession]
  | cons hd t ih =>
    obtain ⟨k0, v0⟩ := hd
    by_cases hk : k0 = sessionId
    · simp [deleteSession, getSession, hk]
    · simp [deleteSession, getSession, hk] at ih ⊢
      exact ih

theorem getSession_deleteSession (st : Store) (sessionId : String)
    (h : NodupKeys st) :
    getSession (deleteSession st sessionId).1 sessionId = none := by
  induction st with
  | nil => simp [deleteSession, getSession]
  | cons hd t ih =>
    obtain ⟨k0, v0⟩ := hd
    obtain ⟨h1, h2⟩ := nodupKeys_cons h
    by_cases hk : k0 = sessionId
    · subst hk
      simp only [deleteSession, if_pos rfl]
      simp only [getSession]
      rw [List.find?_eq_none.mpr]
      · rfl
      · intro e he
        simpa using notMem_keys h1 e he
    · have ht := ih h2
      simp [deleteSession, hk, getSession] at ht ⊢
      exact ht

theorem deleteSession_not_found (st : Store) (sessionId : String)
    (h : getSession st sessionId = none) :
    deleteSession st sessionId = (st, false) := by
  induction st with
  | nil => simp [deleteSession]
  | cons hd t ih =>
    obtain ⟨k0, v0⟩ := hd
    by_cases hk : k0 = sessionId
    · simp [getSession, hk] at h
    · simp [getSession, hk] at h ih
      simp [deleteSession, hk, getSession, ih h]

end Mem

/-! Helper lemmas about the Prisma-backed model. -/

namespace Prisma

theorem sessionId_updRow (s : ChatSession) (now : Int) (r : Row) :
    (updRow s now r).sessionId = r.sessionId := rfl

theorem find?_map_upd (s : ChatSession) (now : Int) :
    ∀ (rows : List Row) (r : Row),
      List.find? (fun x => x.sessionId = s.sessionId) rows = some r →
      List.find? (fun x => x.sessionId = s.sessionId)
          (rows.map (fun x => if x.sessionId = s.sessionId then updRow s now x else x))
        = some (updRow s now r) := by
  intro rows
  induction rows with
  | nil => intro r h; simp at h
  | cons hd t ih =>
    intro r h
    by_cases hk : hd.sessionId = s.sessionId
    · rw [List.find?_cons_of_pos _ (by simpa using hk)] at h
      injection h with h
      subst h
      simp only [List.map_cons, if_pos hk]
      exact List.find?_cons_of_pos _ (by simpa [sessionId_updRow] using hk)
    · rw [List.find?_cons_of_neg _ (by simpa using hk)] at h
      simp only [List.map_cons, if_neg hk]
      rw [List.find?_cons_of_neg _ (by simpa using hk)]
      exact ih r h

theorem find?_upsertRows_update (rows : List Row) (s : ChatSession) (now : Int)
    (r : Row)
    (h : List.find? (fun x => x.sessionId = s.sessionId) rows = some r) :
    List.find? (fun x => x.sessionId = s.sessionId) (upsertRows rows s now)
      = some (updRow s now r) := by
  have hmem := List.mem_of_find?_eq_some h
  have hp := List.find?_some h
  have hany : rows.any (fun x => x.sessionId = s.sessionId) = true :=
    List.any_eq_true.mpr ⟨r, hmem, hp⟩
  unfold upsertRows
  rw [if_pos hany]
  exact find?_map_upd s now rows r h

theorem find?_upsertRows_create (rows : List Row) (s : ChatSession) (now : Int)
    (h : List.find? (fun x => x.sessionId = s.sessionId) rows = none) :
    List.find? (fun x => x.sessionId = s.sessionId) (upsertRows rows s now)
      = some (newRow s now) := by
  have hall := List.find?_eq_none.mp h
  have hany : rows.any (fun x => x.sessionId = s.sessionId) = false := by
    rw [List.any_eq_false]
    intro x hx
    exact hall x hx
  unfold upsertRows
  rw [if_neg (by simp [hany]), List.find?_append, h]
  simp [newRow]

theorem map_sessionId_map_upd (s : ChatSession) (now : Int) (rows : List Row) :
    List.map Row.sessionId
        (rows.map (fun x => if x.sessionId = s.sessionId then updRow s now x else x))
      = List.map Row.sessionId rows := by
  rw [List.map_map]
  apply List.map_congr_left
  intro x _
  by_cases hk : x.sessionId = s.sessionId <;> simp [hk, sessionId_updRow]

theorem nodup_upsertRows (rows : List Row) (s : ChatSession) (now : Int)
    (h : (List.map Row.sessionId rows).Nodup) :
    (List.map Row.sessionId (upsertRows rows s now)).Nodup := by
  unfold upsertRows
  by_cases hany : rows.any (fun r => r.sessionId = s.sessionId) = true
  · rw [if_pos hany, map_sessionId_map_upd]
    exact h
  · rw [if_neg hany]
    have hall : ∀ x ∈ rows, ¬ x.sessionId = s.sessionId := by
      intro x hx
      have := List.any_eq_false.mp (Bool.eq_false_iff.mpr hany) x hx
      simpa using this
    simp only [List.map_append, List.map_cons, List.map_nil]
    rw [List.nodup_append]
    refine ⟨h, List.nodup_singleton _, ?_⟩
    intro a ha hb
    simp [newRow] at hb
    rcases List.mem_map.mp ha with ⟨x, hx, hxa⟩
    exact hall x hx (by rw [hxa, hb])

theorem countP_eq_one_of_any (rows : List Row) (sid : String)
    (h : (List.map Row.sessionId rows).Nodup)
    (hany : rows.any (fun r => r.sessionId = sid) = true) :
    List.countP (fun r => r.sessionId = sid) rows = 1 := by
  induction rows with
  | nil => simp at hany
  | cons hd t ih =>
    have h1 : hd.sessionId ∉ List.map Row.sessionId t :=
      (List.nodup_cons.mp (by simpa using h)).1
    have h2 : (List.map Row.sessionId t).Nodup :=
      (List.nodup_cons.mp (by simpa using h)).2
    by_cases hk : hd.sessionId = sid
    · have hzero : List.countP (fun r => r.sessionId = sid) t = 0 := by
        rw [List.countP_eq_zero]
        intro r hr
        simp only [decide_eq_true_eq]
        intro harg
        exact h1 (by rw [hk, ← harg]; exact List.mem_map_of_mem Row.sessionId hr)
      simp [List.countP_cons, hzero, hk]
    · have hany2 : t.any (fun r => r.sessionId = sid) = true := by
        simpa [hk] using hany
      simp [List.countP_cons, hk, ih h2 hany2]

theorem countP_upsertRows (rows : List Row) (s : ChatSession) (now : Int)
    (h : (List.map Row.sessionId rows).Nodup) :
    List.countP (fun r => r.sessionId = s.sessionId) (upsertRows rows s now) = 1 := by
  unfold upsertRows
  by_cases hany : rows.any (fun r => r.sessionId = s.sessionId) = true
  · rw [if_pos hany]
    have hmap : List.countP (fun r => r.sessionId = s.sessionId)
        (rows.map (fun x => if x.sessionId = s.sessionId then updRow s now x else x))
        = List.countP (fun r => r.sessionId = s.sessionId) rows := by
      rw [List.countP_map]
      apply List.countP_congr
      intro x _
      by_cases hk : x.sessionId = s.sessionId <;>
        simp [Function.comp, hk, sessionId_updRow]
    rw [hmap]
    exact countP_eq_one_of_any rows s.sessionId h hany
  · rw [if_neg hany]
    have hzero : List.countP (fun r => r.sessionId = s.sessionId) rows = 0 := by
      rw [List.countP_eq_zero]
      intro r hr
      have := List.any_eq_false.mp (Bool.eq_false_iff.mpr hany) r hr
      simpa using this
    simp [List.countP_append, hzero, newRow]

theorem find?_upsertRows (rows : List Row) (s : ChatSession) (now : Int) :
    ∃ r2, List.find? (fun x => x.sessionId = s.sessionId) (upsertRows rows s now)
        = some r2
      ∧ r2.sessionId = s.sessionId ∧ r2.messages = s.messages
      ∧ r2.timestamp = s.timestamp ∧ r2.metadata = s.metadata
      ∧ r2.updatedAt = now := by
  rcases hfind : List.find? (fun x => x.sessionId = s.sessionId) rows with _ | r
  · exact ⟨newRow s now, find?_upsertRows_create rows s now hfind,
      rfl, rfl, rfl, rfl, rfl⟩
  · refine ⟨updRow s now r, find?_upsertRows_update rows s now r hfind,
      ?_, rfl, rfl, rfl, rfl⟩
    have := List.find?_some hfind
    simpa [sessionId_updRow] using this

theorem insertDesc_perm (r : Row) (l : List Row) :
    List.Perm (insertDesc r l) (r :: l) := by
  induction l with
  | nil => simp [insertDesc]
  | cons h t ih =>
    by_cases hlt : r.timestamp < h.timestamp
    · rw [insertDesc, if_pos hlt]
      exact (ih.cons h).trans (List.Perm.swap r h t)
    · rw [insertDesc, if_neg hlt]

theorem orderByTimestampDesc_perm (l : List Row) :
    List.Perm (orderByTimestampDesc l) l := by
  induction l with
  | nil => simp [orderByTimestampDesc]
  | cons h t ih =>
    exact (insertDesc_perm h (orderByTimestampDesc t)).trans (ih.cons h)

theorem mem_insertDesc {x r : Row} {l : List Row}
    (hx : x ∈ insertDesc r l) : x = r ∨ x ∈ l :=
  List.mem_cons.mp ((insertDesc_perm r l).subset hx)

theorem sorted_insertDesc (r : Row) (l : List Row)
    (h : List.Pairwise (fun a b => b.timestamp ≤ a.timestamp) l) :
    List.Pairwise (fun a b => b.timestamp ≤ a.timestamp) (insertDesc r l) := by
  induction l with
  | nil => simp [insertDesc]
  | cons hd t ih =>
    rw [List.pairwise_cons] at h
    obtain ⟨hhd, ht⟩ := h
    by_cases hlt : r.timestamp < hd.timestamp
    · rw [insertDesc, if_pos hlt]
      rw [List.pairwise_cons]
      refine ⟨?_, ih ht⟩
      intro b hb
      rcases mem_insertDesc hb with hb | hb
      · exact hb ▸ le_of_lt hlt
      · exact hhd b hb
    · rw [insertDesc, if_neg hlt]
      rw [List.pairwise_cons]
      refine ⟨?_, by rw [List.pairwise_cons]; exact ⟨hhd, ht⟩⟩
      intro b hb
      rcases List.mem_cons.mp hb with hb | hb
      · exact hb ▸ le_of_not_lt hlt
      · exact le_trans (hhd b hb) (le_of_not_lt hlt)

theorem sorted_orderByTimestampDesc (l : List Row) :
    List.Pairwise (fun a b => b.timestamp ≤ a.timestamp)
      (orderByTimestampDesc l) := by
  induction l with
  | nil => simp [orderByTimestampDesc]
  | cons h t ih => exact sorted_insertDesc h (orderByTimestampDesc t) ih

theorem filter_insertDesc (r : Row) (l : List Row) (t0 : Int) :
    (insertDesc r l).filter (fun x => x.timestamp = t0)
      = if r.timestamp = t0 then r :: l.filter (fun x => x.timestamp = t0)
        else l.filter (fun x => x.timestamp = t0) := by
  induction l with
  | nil => by_cases hr : r.timestamp = t0 <;> simp [insertDesc, hr]
  | cons hd tl ih =>
    by_cases hlt : r.timestamp < hd.timestamp
    · rw [insertDesc, if_pos hlt]
      by_cases hh : hd.timestamp = t0
      · by_cases hr : r.timestamp = t0
        · exfalso
          rw [hr, ← hh] at hlt
          exact lt_irrefl _ hlt
        · simp [List.filter_cons, hh, hr, ih]
      · simp [List.filter_cons, hh, ih]
    · rw [insertDesc, if_neg hlt]
      by_cases hr : r.timestamp = t0 <;> simp [List.filter_cons, hr]

theorem filter_orderByTimestampDesc (l : List Row) (t0 : Int) :
    (orderByTimestampDesc l).filter (fun x => x.timestamp = t0)
      = l.filter (fun x => x.timestamp = t0) := by
  induction l with
  | nil => simp [orderByTimestampDesc]
  | cons h t ih =>
    rw [orderByTimestampDesc, filter_insertDesc]
    by_cases hh : h.timestamp = t0 <;> simp [List.filter_cons, hh, ih]

theorem getSession_after_delete (db : PrismaDB) (sessionId : String)
    (hf : db.failing = false) :
    getSession (deleteSession db sessionId).1 sessionId = none := by
  unfold deleteSession
  rw [hf]
  by_cases hany : db.rows.any (fun r => r.sessionId = sessionId) = true
  · simp only [Bool.false_eq_true, if_false, hany, if_true]
    unfold getSession
    simp only [Bool.false_eq_true, if_false]
    rw [List.find?_eq_none.mpr]
    intro x hx
    have := (List.mem_filter.mp hx).2
    simpa using this
  · simp only [Bool.false_eq_true, if_false, hany]
    unfold getSession
    rw [hf]
    simp only [Bool.false_eq_true, if_false]
    rw [List.find?_eq_none.mpr]
    intro x hx
    have := List.any_eq_false.mp (Bool.eq_false_iff.mpr hany) x hx
    simpa using this

end Prisma

/-! Concrete values used by counterexamples and witnesses. -/

/-- A sample session with identifier `"s1"`. -/
def exS1 : ChatSession :=
  { sessionId := "s1",
    messages := [{ role := Role.user, content := "Hello" }],
    timestamp := 0, metadata := none }

/-- A second payload for the same identifier `"s1"`. -/
def exS1b : ChatSession :=
  { sessionId := "s1",
    messages := [{ role := Role.user, content := "Hello" },
                 { role := Role.model, content := "Hi there!" }],
    timestamp := 50, metadata := none }

/-- A sample session with identifier `"s2"` and a later timestamp. -/
def exS2 : ChatSession :=
  { sessionId := "s2",
    messages := [{ role := Role.user, content := "Later" }],
    timestamp := 1000, metadata := none }

/-- A stored row for identifier `"s1"`. -/
def exRow1 : Row :=
  { sessionId := "s1", messages := exS1.messages, timestamp := 0,
    metadata := none, createdAt := 3, updatedAt := 3 }

/-- A one-row healthy database holding `exRow1`. -/
def exDb1 : PrismaDB := { rows := [exRow1], failing := false }

/-- The database obtained by saving `exS1` into an empty healthy store at
time 7. -/
def exDbSaved : PrismaDB := { rows := [Prisma.newRow exS1 7], failing := false }

/-! Claim theorems. -/

/-- C1: for every session S, calling saveSession(S) and then immediately
getSession(S.sessionId) on the same store returns a session whose
messages, metadata, and sessionId equal those of S — in both the in-memory
store and the Prisma store (where the save must have succeeded for a next
state to exist at all). -/
theorem C1_save_get_roundtrip :
    (∀ (st : Mem.Store) (s : ChatSession),
      Mem.getSession (Mem.saveSession st s) s.sessionId = some s)
    ∧ (∀ (db : PrismaDB) (s : ChatSession) (now : Int) (db2 : PrismaDB),
        Prisma.saveSession db s now = Except.ok db2 →
        ∃ s2, Prisma.getSession db2 s.sessionId = some s2
          ∧ s2.messages = s.messages ∧ s2.metadata = s.metadata
          ∧ s2.sessionId = s.sessionId) := by
  constructor
  · exact Mem.getSession_saveSession_self
  · intro db s now db2 hsave
    unfold Prisma.saveSession at hsave
    by_cases hf : db.failing
    · rw [if_pos hf] at hsave
      cases hsave
    · rw [if_neg hf] at hsave
      injection hsave with hsave
      obtain ⟨r2, hfind, hsid, hmsg, hts, hmd, hupd⟩ :=
        Prisma.find?_upsertRows db.rows s now
      refine ⟨Prisma.rowToSession r2, ?_, hmsg, hmd, hsid⟩
      rw [← hsave]
      unfold Prisma.getSession
      simp only [Bool.false_eq_true, if_false, hfind]

/-- Witness for C1 at a concrete input: saving `exS1` into the empty
healthy Prisma store at time 7 and fetching `"s1"` returns its messages,
metadata and identifier. -/
theorem C1_save_get_roundtrip_witness :
    Prisma.saveSession { rows := [], failing := false } exS1 7
        = Except.ok exDbSaved
    ∧ ∃ s2, Prisma.getSession exDbSaved "s1" = some s2
        ∧ s2.messages = exS1.messages ∧ s2.metadata = exS1.metadata
        ∧ s2.sessionId = "s1" := by
  refine ⟨rfl, ?_⟩
  exact C1_save_get_roundtrip.2 { rows := [], failing := false } exS1 7
    exDbSaved rfl

/-- C2: after two saveSession calls with the same sessionId (any payloads),
the store holds exactly one record for that identifier and its messages are
the second call's payload — in the in-memory store (under the Map's
distinct-keys invariant) and in the Prisma store (under the UNIQUE index on
sessionId). -/
theorem C2_last_write_wins :
    (∀ (st : Mem.Store) (s1 s2 : ChatSession),
      Mem.NodupKeys st → s1.sessionId = s2.sessionId →
      List.countP (fun e => e.1 = s2.sessionId)
          (Mem.saveSession (Mem.saveSession st s1) s2) = 1
      ∧ Mem.getSession (Mem.saveSession (Mem.saveSession st s1) s2)
          s2.sessionId = some s2)
    ∧ (∀ (db : PrismaDB) (s1 s2 : ChatSession) (now1 now2 : Int)
        (db1 db2 : PrismaDB),
        Prisma.NodupIds db → s1.sessionId = s2.sessionId →
        Prisma.saveSession db s1 now1 = Except.ok db1 →
        Prisma.saveSession db1 s2 now2 = Except.ok db2 →
        List.countP (fun r => r.sessionId = s2.sessionId) db2.rows = 1
        ∧ ∃ r2, List.find? (fun r => r.sessionId = s2.sessionId) db2.rows
              = some r2 ∧ r2.messages = s2.messages) := by
  constructor
  · intro st s1 s2 hnd _
    refine ⟨?_, Mem.getSession_saveSession_self _ s2⟩
    exact Mem.countP_mapSet _ s2.sessionId s2
      (Mem.nodupKeys_mapSet st s1.sessionId s1 hnd)
  · intro db s1 s2 now1 now2 db1 db2 hnd hid hsave1 hsave2
    unfold Prisma.saveSession at hsave1 hsave2
    by_cases hf : db.failing
    · rw [if_pos hf] at hsave1
      cases hsave1
    · rw [if_neg hf] at hsave1
      injection hsave1 with hsave1
      have hf1 : db1.failing = false := by rw [← hsave1]
      rw [hf1] at hsave2
      simp only [Bool.false_eq_true, if_false] at hsave2
      injection hsave2 with hsave2
      have hnd1 : (List.map Row.sessionId db1.rows).Nodup := by
        rw [← hsave1]
        exact Prisma.nodup_upsertRows db.rows s1 now1 hnd
      constructor
      · rw [← hsave2]
        exact Prisma.countP_upsertRows db1.rows s2 now2 hnd1
      · obtain ⟨r2, hfind, _, hmsg, _, _, _⟩ :=
          Prisma.find?_upsertRows db1.rows s2 now2
        rw [← hsave2]
        exact ⟨r2, hfind, hmsg⟩

/-- Witness for C2 at a concrete input: saving `exS1` then `exS1b` (same
identifier "s1", different messages) into the empty healthy store leaves
exactly one "s1" record carrying `exS1b`'s messages. -/
theorem C2_last_write_wins_witness :
    Prisma.NodupIds { rows := [], failing := false }
    ∧ exS1.sessionId = exS1b.sessionId
    ∧ Prisma.saveSession { rows := [], failing := false } exS1 7
        = Except.ok exDbSaved
    ∧ Prisma.saveSession exDbSaved exS1b 9
        = Except.ok { rows := [Prisma.updRow exS1b 9 (Prisma.newRow exS1 7)],
                      failing := false }
    ∧ List.countP (fun r => r.sessionId = exS1b.sessionId)
        [Prisma.updRow exS1b 9 (Prisma.newRow exS1 7)] = 1
    ∧ ∃ r2, List.find? (fun r => r.sessionId = exS1b.sessionId)
          [Prisma.updRow exS1b 9 (Prisma.newRow exS1 7)] = some r2
        ∧ r2.messages = exS1b.messages := by
  refine ⟨by simp [Prisma.NodupIds], rfl, rfl, rfl, ?_⟩
  exact C2_last_write_wins.2 { rows := [], failing := false } exS1 exS1b 7 9
    exDbSaved
    { rows := [Prisma.updRow exS1b 9 (Prisma.newRow exS1 7)], failing := false }
    (by simp [Prisma.NodupIds]) rfl rfl rfl

/-- C3 counterexample: in the in-memory store, saving `exS1` (timestamp 0)
and then `exS2` (timestamp 1000) makes getAllSessions return them in
insertion order `[exS1, exS2]` — the older session first — not in
timestamp-descending order `[exS2, exS1]` as the claim requires for every
store. -/
theorem C3_insertion_order_counterexample :
    Mem.getAllSessions (Mem.saveSession (Mem.saveSession [] exS1) exS2)
        = [exS1, exS2]
    ∧ exS1.timestamp < exS2.timestamp
    ∧ exS1 ≠ exS2 := by
  refine ⟨rfl, by decide, by decide⟩

/-- C3 amended: the durable (Prisma) store's getAllSessions returns every
stored session ordered by timestamp descending, with ties kept in stored
row order, and the empty sequence when the store is empty; the in-memory
store's getAllSessions instead returns every stored session in insertion
order (and the empty sequence when the store is empty). -/
theorem C3_get_all_sessions_order :
    (∀ db : PrismaDB, db.failing = false →
      List.Pairwise (fun a b => b.timestamp ≤ a.timestamp)
        (Prisma.getAllSessions db)
      ∧ List.Perm (Prisma.getAllSessions db)
          (List.map Prisma.rowToSession db.rows)
      ∧ ∀ t0 : Int,
          (Prisma.orderByTimestampDesc db.rows).filter
              (fun r => r.timestamp = t0)
            = db.rows.filter (fun r => r.timestamp = t0))
    ∧ (∀ db : PrismaDB, db.rows = [] → Prisma.getAllSessions db = [])
    ∧ (∀ st : Mem.Store, Mem.getAllSessions st = List.map (fun e => e.2) st) := by
  refine ⟨?_, ?_, fun st => rfl⟩
  · intro db hf
    unfold Prisma.getAllSessions
    rw [hf]
    simp only [Bool.false_eq_true, if_false]
    refine ⟨?_, ?_, fun t0 => Prisma.filter_orderByTimestampDesc db.rows t0⟩
    · rw [List.pairwise_map]
      exact Prisma.sorted_orderByTimestampDesc db.rows
    · exact (Prisma.orderByTimestampDesc_perm db.rows).map Prisma.rowToSession
  · intro db hrows
    unfold Prisma.getAllSessions
    rw [hrows]
    by_cases hf : db.failing <;> simp [hf, Prisma.orderByTimestampDesc]

/-- Witness for the amended C3 at a concrete input: a healthy two-row
database is listed sorted descending, as a permutation of its rows, with
stable ties. -/
theorem C3_get_all_sessions_order_witness :
    ({ rows := [exRow1, Prisma.newRow exS2 4], failing := false } :
        PrismaDB).failing = false
    ∧ List.Pairwise (fun a b => b.timestamp ≤ a.timestamp)
        (Prisma.getAllSessions
          { rows := [exRow1, Prisma.newRow exS2 4], failing := false })
    ∧ List.Perm
        (Prisma.getAllSessions
          { rows := [exRow1, Prisma.newRow exS2 4], failing := false })
        (List.map Prisma.rowToSession [exRow1, Prisma.newRow exS2 4]) := by
  have h := (C3_get_all_sessions_order.1
    { rows := [exRow1, Prisma.newRow exS2 4], failing := false } rfl)
  exact ⟨rfl, h.1, h.2.1⟩

/-- C4 counterexample: with a failing storage medium, the Prisma store's
getSession returns `null` for identifier "s1" even though a record for
"s1" is stored (and would be found on a healthy medium) — the very value
that means "not found" — so the storage failure is silently converted into
a false not-found. -/
theorem C4_get_session_swallows_counterexample :
    Prisma.getSession { rows := [exRow1], failing := true } "s1" = none
    ∧ Prisma.getSession { rows := [], failing := false } "s1" = none
    ∧ Prisma.getSession { rows := [exRow1], failing := false } "s1" ≠ none := by
  refine ⟨rfl, rfl, by decide⟩

/-- C4 amended: when the underlying storage medium fails, saveSession does
signal the failure distinctly (it throws "Failed to save chat session"),
but getSession catches the failure and returns the not-found value `null`;
only saveSession never converts a storage failure into a false
not-found. -/
theorem C4_failure_signalling :
    ∀ (db : PrismaDB) (s : ChatSession) (now : Int) (sessionId : String),
      db.failing = true →
      Prisma.saveSession db s now = Except.error "Failed to save chat session"
      ∧ Prisma.getSession db sessionId = none := by
  intro db s now sessionId hf
  unfold Prisma.saveSession Prisma.getSession
  rw [hf]
  exact ⟨rfl, rfl⟩

/-- Witness for the amended C4 at a concrete input: on a failing one-row
database, saveSession errors and getSession reports not-found. -/
theorem C4_failure_signalling_witness :
    ({ rows := [exRow1], failing := true } : PrismaDB).failing = true
    ∧ Prisma.saveSession { rows := [exRow1], failing := true } exS1 7
        = Except.error "Failed to save chat session"
    ∧ Prisma.getSession { rows := [exRow1], failing := true } "s1" = none := by
  refine ⟨rfl, ?_⟩
  exact C4_failure_signalling { rows := [exRow1], failing := true } exS1 7
    "s1" rfl

/-- C5: contrary to the claim (and to the controller's own swagger
documentation of a 503 "degraded" response), GET /health always answers
200 "healthy": the Prisma store's getSessionCount catches every storage
error internally and returns 0, so the healthCheck's catch branch — which
would produce 503 "degraded" — is unreachable; on a failing medium the
endpoint reports 200, "healthy", connected, sessionCount 0. -/
theorem C5_health_unreachable_degraded :
    (∀ db : PrismaDB,
      Prisma.getSessionCountE db = Except.ok (Prisma.getSessionCount db))
    ∧ (∀ db : PrismaDB, (Http.healthEndpoint db).httpStatus = 200
        ∧ (Http.healthEndpoint db).status = "healthy")
    ∧ Http.healthEndpoint { rows := [], failing := true }
        = { httpStatus := 200, success := true, status := "healthy",
            connected := true, sessionCount := 0 }
    ∧ (∀ e : String, (Http.healthCheck (Except.error e)).httpStatus = 503
        ∧ (Http.healthCheck (Except.error e)).status = "degraded") := by
  refine ⟨fun db => rfl, fun db => ⟨rfl, rfl⟩, rfl, fun e => ⟨rfl, rfl⟩⟩

/-- C6: deleteSession returns true exactly when a record with the
identifier existed (and afterwards getSession reports not-found), and
returns false — never an error — when nothing matched, leaving the store
unchanged; proved for the in-memory store (under the Map's distinct-keys
invariant) and for the healthy Prisma store. -/
theorem C6_delete_session :
    (∀ (st : Mem.Store) (sessionId : String), Mem.NodupKeys st →
      ((Mem.deleteSession st sessionId).2 = true
        ↔ (Mem.getSession st sessionId).isSome = true)
      ∧ Mem.getSession (Mem.deleteSession st sessionId).1 sessionId = none
      ∧ (Mem.getSession st sessionId = none →
          Mem.deleteSession st sessionId = (st, false)))
    ∧ (∀ (db : PrismaDB) (sessionId : String), db.failing = false →
      ((Prisma.deleteSession db sessionId).2 = true
        ↔ ∃ r ∈ db.rows, r.sessionId = sessionId)
      ∧ Prisma.getSession (Prisma.deleteSession db sessionId).1 sessionId = none
      ∧ ((∀ r ∈ db.rows, ¬ r.sessionId = sessionId) →
          Prisma.deleteSession db sessionId = (db, false))) := by
  constructor
  · intro st sessionId hnd
    refine ⟨?_, Mem.getSession_deleteSession st sessionId hnd,
      Mem.deleteSession_not_found st sessionId⟩
    rw [Mem.deleteSession_snd]
  · intro db sessionId hf
    refine ⟨?_, Prisma.getSession_after_delete db sessionId hf, ?_⟩
    · unfold Prisma.deleteSession
      rw [hf]
      simp only [Bool.false_eq_true, if_false]
      by_cases hany : db.rows.any (fun r => r.sessionId = sessionId) = true
      · rw [if_pos hany]
        simpa using List.any_eq_true.mp hany
      · rw [if_neg hany]
        constructor
        · intro h
          cases h
        · intro hex
          exact absurd (List.any_eq_true.mpr (by simpa using hex)) hany
    · intro hall
      unfold Prisma.deleteSession
      rw [hf]
      simp only [Bool.false_eq_true, if_false]
      rw [if_neg]
      intro hany
      obtain ⟨r, hr, hp⟩ := List.any_eq_true.mp hany
      exact hall r hr (by simpa using hp)

/-- Witness for C6 at a concrete input: deleting "s1" from a one-entry map
returns true and a subsequent lookup misses; deleting "zz" from the
healthy one-row database returns false and leaves it unchanged. -/
theorem C6_delete_session_witness :
    Mem.NodupKeys [("s1", exS1)]
    ∧ ((Mem.deleteSession [("s1", exS1)] "s1").2 = true
        ↔ (Mem.getSession [("s1", exS1)] "s1").isSome = true)
    ∧ Mem.getSession (Mem.deleteSession [("s1", exS1)] "s1").1 "s1" = none
    ∧ exDb1.failing = false
    ∧ ((∀ r ∈ exDb1.rows, ¬ r.sessionId = "zz") →
        Prisma.deleteSession exDb1 "zz" = (exDb1, false)) := by
  refine ⟨by simp [Mem.NodupKeys], ?_, ?_, rfl, ?_⟩
  · exact (C6_delete_session.1 [("s1", exS1)] "s1" (by simp [Mem.NodupKeys])).1
  · exact (C6_delete_session.1 [("s1", exS1)] "s1" (by simp [Mem.NodupKeys])).2.1
  · exact (C6_delete_session.2 exDb1 "zz" rfl).2.2

/-- C7: a POST /chat/save body whose messages field is missing, not an
array, or an empty array is answered 400 with success false and an error,
and is never delegated to the store's saveSession — in the current
controller and in the earlier variant. -/
theorem C7_save_validation :
    ∀ (save saveV : ChatSession → Except String Unit) (genId : String)
      (now : Int) (req : Http.SaveChatRequest),
      (req.messages = Http.MessagesField.missing
        ∨ req.messages = Http.MessagesField.notAnArray
        ∨ req.messages = Http.MessagesField.arr []) →
      (Http.saveChatSession save genId now req).httpStatus = 400
      ∧ (Http.saveChatSession save genId now req).success = false
      ∧ (Http.saveChatSession save genId now req).error = some "Invalid request"
      ∧ (Http.saveChatSession save genId now req).delegated = none
      ∧ (Http.saveChatSessionVariant saveV now req).httpStatus = 400
      ∧ (Http.saveChatSessionVariant saveV now req).success = false
      ∧ (Http.saveChatSessionVariant saveV now req).delegated = none := by
  intro save saveV genId now req hbad
  rcases hbad with h | h | h
  · simp [Http.saveChatSession, Http.saveChatSessionVariant, h]
  · simp [Http.saveChatSession, Http.saveChatSessionVariant, h]
  · by_cases hs : Http.jsOrString req.sessionId "" = "" <;>
      simp [Http.saveChatSession, Http.saveChatSessionVariant, h, hs]

/-- Witness for C7 at a concrete input: a body with no messages field is
rejected 400 by both controllers without reaching the store. -/
theorem C7_save_validation_witness :
    (({ sessionId := none, messages := Http.MessagesField.missing,
        timestamp := none } : Http.SaveChatRequest).messages
          = Http.MessagesField.missing
      ∨ ({ sessionId := none, messages := Http.MessagesField.missing,
           timestamp := none } : Http.SaveChatRequest).messages
          = Http.MessagesField.notAnArray
      ∨ ({ sessionId := none, messages := Http.MessagesField.missing,
           timestamp := none } : Http.SaveChatRequest).messages
          = Http.MessagesField.arr [])
    ∧ (Http.saveChatSession (fun _ => Except.ok ()) "chat-1-abc" 0
        { sessionId := none, messages := Http.MessagesField.missing,
          timestamp := none }).httpStatus = 400
    ∧ (Http.saveChatSession (fun _ => Except.ok ()) "chat-1-abc" 0
        { sessionId := none, messages := Http.MessagesField.missing,
          timestamp := none }).delegated = none := by
  have h := C7_save_validation (fun _ => Except.ok ()) (fun _ => Except.ok ())
    "chat-1-abc" 0
    { sessionId := none, messages := Http.MessagesField.missing,
      timestamp := none } (Or.inl rfl)
  exact ⟨Or.inl rfl, h.1, h.2.2.2.1⟩

/-- C8: a POST /chat/save with a non-empty messages array and no sessionId
is answered 201, the controller generates an identifier, calls saveSession
with exactly that identifier, and returns it as the response's
sessionId. -/
theorem C8_generated_session_id :
    ∀ (save : ChatSession → Except String Unit) (genId : String) (now : Int)
      (m : Message) (ms : List Message) (ts : Option Int),
      save { sessionId := genId, messages := m :: ms,
             timestamp := ts.getD now, metadata := none } = Except.ok () →
      (Http.saveChatSession save genId now
          { sessionId := none, messages := Http.MessagesField.arr (m :: ms),
            timestamp := ts }).httpStatus = 201
      ∧ (Http.saveChatSession save genId now
          { sessionId := none, messages := Http.MessagesField.arr (m :: ms),
            timestamp := ts }).success = true
      ∧ (Http.saveChatSession save genId now
          { sessionId := none, messages := Http.MessagesField.arr (m :: ms),
            timestamp := ts }).sessionId = some genId
      ∧ (Http.saveChatSession save genId now
          { sessionId := none, messages := Http.MessagesField.arr (m :: ms),
            timestamp := ts }).delegated
          = some { sessionId := genId, messages := m :: ms,
                   timestamp := ts.getD now, metadata := none } := by
  intro save genId now m ms ts hsave
  simp [Http.saveChatSession, Http.jsOrString, hsave]

/-- Witness for C8 at a concrete input: with an always-succeeding store,
a one-message body without sessionId yields 201 and the generated
identifier. -/
theorem C8_generated_session_id_witness :
    ((fun _ : ChatSession => (Except.ok () : Except String Unit))
        { sessionId := "chat-17-x0y1z2",
          messages := [{ role := Role.user, content := "Hello" }],
          timestamp := (none : Option Int).getD 0, metadata := none }
      = Except.ok ())
    ∧ (Http.saveChatSession (fun _ => Except.ok ()) "chat-17-x0y1z2" 0
        { sessionId := none,
          messages := Http.MessagesField.arr
            [{ role := Role.user, content := "Hello" }],
          timestamp := none }).httpStatus = 201
    ∧ (Http.saveChatSession (fun _ => Except.ok ()) "chat-17-x0y1z2" 0
        { sessionId := none,
          messages := Http.MessagesField.arr
            [{ role := Role.user, content := "Hello" }],
          timestamp := none }).sessionId = some "chat-17-x0y1z2" := by
  have h := C8_generated_session_id (fun _ => Except.ok ()) "chat-17-x0y1z2" 0
    { role := Role.user, content := "Hello" } [] none rfl
  exact ⟨rfl, h.1, h.2.2.1⟩

/-- C9: a successful saveSession on the Prisma store replaces messages,
timestamp and metadata of the row with the session's identifier and sets
updatedAt to the write time, keeping createdAt when the row already
existed, and setting createdAt = updatedAt = now on first creation. -/
theorem C9_created_updated_frame :
    ∀ (db : PrismaDB) (s : ChatSession) (now : Int) (db2 : PrismaDB),
      Prisma.saveSession db s now = Except.ok db2 →
      (∀ r : Row,
        List.find? (fun x => x.sessionId = s.sessionId) db.rows = some r →
        ∃ r2, List.find? (fun x => x.sessionId = s.sessionId) db2.rows
            = some r2
          ∧ r2.messages = s.messages ∧ r2.timestamp = s.timestamp
          ∧ r2.metadata = s.metadata ∧ r2.updatedAt = now
          ∧ r2.createdAt = r.createdAt)
      ∧ (List.find? (fun x => x.sessionId = s.sessionId) db.rows = none →
        ∃ r2, List.find? (fun x => x.sessionId = s.sessionId) db2.rows
            = some r2
          ∧ r2.messages = s.messages ∧ r2.timestamp = s.timestamp
          ∧ r2.metadata = s.metadata ∧ r2.createdAt = now
          ∧ r2.updatedAt = now) := by
  intro db s now db2 hsave
  unfold Prisma.saveSession at hsave
  by_cases hf : db.failing
  · rw [if_pos hf] at hsave
    cases hsave
  · rw [if_neg hf] at hsave
    injection hsave with hsave
    constructor
    · intro r hr
      refine ⟨Prisma.updRow s now r, ?_, rfl, rfl, rfl, rfl, rfl⟩
      rw [← hsave]
      exact Prisma.find?_upsertRows_update db.rows s now r hr
    · intro hnone
      refine ⟨Prisma.newRow s now, ?_, rfl, rfl, rfl, rfl, rfl⟩
      rw [← hsave]
      exact Prisma.find?_upsertRows_create db.rows s now hnone

/-- Witness for C9 at a concrete input: re-saving identifier "s1" (stored
with createdAt 3) at time 9 keeps createdAt 3 and sets updatedAt 9 with
the new messages. -/
theorem C9_created_updated_frame_witness :
    Prisma.saveSession exDb1 exS1b 9
        = Except.ok { rows := [Prisma.updRow exS1b 9 exRow1], failing := false }
    ∧ List.find? (fun x => x.sessionId = exS1b.sessionId) exDb1.rows
        = some exRow1
    ∧ ∃ r2, List.find? (fun x => x.sessionId = exS1b.sessionId)
          ({ rows := [Prisma.updRow exS1b 9 exRow1], failing := false } :
            PrismaDB).rows = some r2
        ∧ r2.messages = exS1b.messages ∧ r2.timestamp = exS1b.timestamp
        ∧ r2.metadata = exS1b.metadata ∧ r2.updatedAt = 9
        ∧ r2.createdAt = exRow1.createdAt := by
  refine ⟨rfl, rfl, ?_⟩
  exact (C9_created_updated_frame exDb1 exS1b 9
    { rows := [Prisma.updRow exS1b 9 exRow1], failing := false } rfl).1
    exRow1 rfl

/-- C10: in the durable store every operation other than saveSession is
total and swallows storage failures: on a failing medium getAllSessions
returns [], deleteSession returns false leaving the state unchanged, and
getSessionCount returns 0 — the same observable results as on an empty
healthy store. -/
theorem C10_silent_non_save_operations :
    ∀ (db : PrismaDB) (sessionId : String), db.failing = true →
      Prisma.getAllSessions db = []
      ∧ Prisma.deleteSession db sessionId = (db, false)
      ∧ Prisma.getSessionCount db = 0
      ∧ Prisma.getAllSessions db
          = Prisma.getAllSessions { rows := [], failing := false }
      ∧ Prisma.getSessionCount db
          = Prisma.getSessionCount { rows := [], failing := false }
      ∧ (Prisma.deleteSession db sessionId).2
          = (Prisma.deleteSession { rows := [], failing := false } sessionId).2 := by
  intro db sessionId hf
  unfold Prisma.getAllSessions Prisma.deleteSession Prisma.getSessionCount
  rw [hf]
  exact ⟨rfl, rfl, rfl, rfl, rfl, rfl⟩

/-- Witness for C10 at a concrete input: a failing one-row database
behaves like the empty healthy one for list, delete, and count. -/
theorem C10_silent_non_save_operations_witness :
    ({ rows := [exRow1], failing := true } : PrismaDB).failing = true
    ∧ Prisma.getAllSessions { rows := [exRow1], failing := true } = []
    ∧ Prisma.deleteSession { rows := [exRow1], failing := true } "s1"
        = ({ rows := [exRow1], failing := true }, false)
    ∧ Prisma.getSessionCount { rows := [exRow1], failing := true } = 0 := by
  have h := C10_silent_non_save_operations
    { rows := [exRow1], failing := true } "s1" rfl
  exact ⟨rfl, h.1, h.2.1, h.2.2.1⟩
